import Mathlib

/-!
Shallow embedding of the Carbo-ntoken dApp's meta-transaction relay and
cache logic, translated from the TypeScript sources:

* `src/api/relay-transfer.ts` — the relay verifier/executor (`handler`);
* the `useContract` hook — `checkUserRole`, `loadUserActions`,
  `getTokenBalance`, `loadRoleEvents`;
* `src/components/EcoGaslessTransfer.tsx` and
  `src/components/GaslessTransferForm.tsx` — the two client-side
  gasless-transfer flows (`getNonce`, `createTransferRequest`).

External collaborators (the ethers.js library and the blockchain JSON-RPC
node) are modelled as oracle functions carried in environment records;
fallible calls return `Except`.  JavaScript truthiness on optional fields
is modelled explicitly (`truthyStr`, `truthyInt`).
-/

namespace CarbonToken

deriving instance DecidableEq for Except

/-- JavaScript truthiness of a possibly-absent string field: `undefined`
and the empty string are falsy, every other string is truthy. -/
def truthyStr : Option String → Bool
  | none => false
  | some s => !s.isEmpty

/-- JavaScript truthiness of a possibly-absent number field: `undefined`
and `0` are falsy. -/
def truthyInt : Option Int → Bool
  | none => false
  | some n => n != 0

/-- The JSON body of a `POST /api/relay-transfer` request
(`RelayRequest` in `relay-transfer.ts`); every field may be absent. -/
structure RelayRequest where
  fromAddr : Option String
  toAddr : Option String
  amount : Option String
  nonce : Option Int
  deadline : Option Int
  signature : Option String
deriving Repr, DecidableEq

/-- Field access after destructuring (`undefined` flows through as a
default; the defaults are only reachable past the presence check). -/
def RelayRequest.fromD (r : RelayRequest) : String := r.fromAddr.getD ""

def RelayRequest.toD (r : RelayRequest) : String := r.toAddr.getD ""

def RelayRequest.amountD (r : RelayRequest) : String := r.amount.getD ""

def RelayRequest.nonceD (r : RelayRequest) : Int := r.nonce.getD 0

def RelayRequest.deadlineD (r : RelayRequest) : Int := r.deadline.getD 0

def RelayRequest.sigD (r : RelayRequest) : String := r.signature.getD ""

/-- The relay's required-field test, line 58 of `relay-transfer.ts`:
`!from || !to || !amount || nonce === undefined || !deadline || !signature`.
All fields but `nonce` are tested by truthiness; `nonce` alone is compared
against `undefined`. -/
def missingFields (r : RelayRequest) : Bool :=
  !truthyStr r.fromAddr || !truthyStr r.toAddr || !truthyStr r.amount
    || r.nonce.isNone || !truthyInt r.deadline || !truthyStr r.signature

/-- Deployed EcoMetaTransfer contract address (constant in the source). -/
def ECO_META_CONTRACT : String := "0xB4E765140cefB7E14B97899Ab573C1e27b5E12b6"

/-- EIP-712 domain separator data. -/
structure Eip712Domain where
  name : String
  version : String
  chainId : Int
  verifyingContract : String
deriving Repr, DecidableEq

/-- The fixed domain `DOMAIN` from `relay-transfer.ts`. -/
def DOMAIN : Eip712Domain :=
  { name := "EcoMetaTransfer", version := "1", chainId := 11155111,
    verifyingContract := ECO_META_CONTRACT }

/-- The fixed `TYPES.Transfer` field list from `relay-transfer.ts`. -/
def TYPES : List (String × String) :=
  [("from", "address"), ("to", "address"), ("amount", "uint256"),
   ("nonce", "uint256"), ("deadline", "uint256")]

/-- The message object passed to `ethers.verifyTypedData` and to
`transferWithSig`: the five destructured request fields. -/
structure TypedMessage where
  fromAddr : String
  toAddr : String
  amount : String
  nonce : Int
  deadline : Int
deriving Repr, DecidableEq

/-- Message built from the request, line 78: `{from, to, amount, nonce, deadline}`. -/
def typedMessageOf (r : RelayRequest) : TypedMessage :=
  ⟨r.fromD, r.toD, r.amountD, r.nonceD, r.deadlineD⟩

/-- A thrown JavaScript error as observed by the relay's catch blocks:
an optional `code` and a `message`. -/
structure ErrInfo where
  code : Option String
  message : String
deriving Repr, DecidableEq

/-- A mined-transaction receipt as used by the success path. -/
structure TxReceipt where
  txHash : String
  blockNumber : Int
deriving Repr, DecidableEq

/-- Oracles for the relay's external collaborators: the clock,
`ethers.isAddress`, `ethers.verifyTypedData`, the contract's `nonces`
view, and the `transferWithSig` submission (send plus `tx.wait`). -/
structure RelayEnv where
  currentTime : Int
  isAddress : String → Bool
  verifyTypedData :
    Eip712Domain → List (String × String) → TypedMessage → String → Except ErrInfo String
  nonces : String → Except ErrInfo Int
  transferWithSig : TypedMessage → String → Except ErrInfo TxReceipt

/-- Response body: an error message or the success payload. -/
inductive RespBody where
  | err (msg : String)
  | ok (txHash : String) (blockNumber : Int)
deriving Repr, DecidableEq

/-- An HTTP response: status code and body. -/
structure Resp where
  status : Nat
  body : RespBody
deriving Repr, DecidableEq

/-- Result of one relay invocation: the HTTP response together with
whether the on-chain `transferWithSig` call was issued. -/
structure Outcome where
  resp : Resp
  submitted : Bool
deriving Repr, DecidableEq

/-- JavaScript `toLowerCase` as applied to hex address strings:
per-character ASCII lowercasing. -/
def toLowerCase (s : String) : String := ⟨s.data.map Char.toLower⟩

/-- `s.includes(pat)` for a nonempty pattern, via `splitOn`. -/
def strContains (s pat : String) : Bool := (s.splitOn pat).length != 1

/-- The outer catch block of `handler` (lines 127-157): classify a
submission error by its `code` and `message`. -/
def catchClause (e : ErrInfo) : Resp :=
  if e.code = some "INSUFFICIENT_FUNDS" then
    ⟨500, .err "Relayer has insufficient funds for gas"⟩
  else if e.code = some "UNPREDICTABLE_GAS_LIMIT" then
    ⟨400, .err "Transaction would fail (likely insufficient token balance or approval)"⟩
  else if strContains e.message "execution reverted" then
    ⟨400, .err "Transaction reverted by contract"⟩
  else if strContains e.message "user rejected" then
    ⟨400, .err "Transaction was rejected by user"⟩
  else
    ⟨500, .err (if e.message.isEmpty then "Failed to relay transaction" else e.message)⟩

/-- The relay endpoint `handler` of `src/api/relay-transfer.ts`,
lines 49-159: method check, presence check, address-format check,
deadline check, EIP-712 recovery check, on-chain nonce check, then the
`transferWithSig` submission.  `submitted` records whether the on-chain
call was issued. -/
def handler (env : RelayEnv) (method : String) (req : RelayRequest) : Outcome :=
  if method ≠ "POST" then ⟨⟨405, .err "Method not allowed"⟩, false⟩
  else if missingFields req then ⟨⟨400, .err "Missing required fields"⟩, false⟩
  else if !(env.isAddress req.fromD && env.isAddress req.toD) then
    ⟨⟨400, .err "Invalid address format"⟩, false⟩
  else if req.deadlineD < env.currentTime then
    ⟨⟨400, .err "Transfer deadline has passed"⟩, false⟩
  else
    match env.verifyTypedData DOMAIN TYPES (typedMessageOf req) req.sigD with
    | .error _ => ⟨⟨400, .err "Signature verification failed"⟩, false⟩
    | .ok recovered =>
      if toLowerCase recovered ≠ toLowerCase req.fromD then
        ⟨⟨400, .err "Invalid signature"⟩, false⟩
      else
        match env.nonces req.fromD with
        | .error _ => ⟨⟨500, .err "Failed to verify nonce"⟩, false⟩
        | .ok currentNonce =>
          if currentNonce ≠ req.nonceD then ⟨⟨400, .err "Invalid nonce"⟩, false⟩
          else
            match env.transferWithSig (typedMessageOf req) req.sigD with
            | .error e => ⟨catchClause e, true⟩
            | .ok receipt => ⟨⟨200, .ok receipt.txHash receipt.blockNumber⟩, true⟩

/-- The relay's address-format check, line 63. -/
def addrCheckOk (env : RelayEnv) (r : RelayRequest) : Bool :=
  env.isAddress r.fromD && env.isAddress r.toD

/-- The relay's deadline check, line 69: passes unless `deadline < now`. -/
def deadlineCheckOk (env : RelayEnv) (r : RelayRequest) : Bool :=
  !decide (r.deadlineD < env.currentTime)

/-- The relay's signature check, lines 75-84: `verifyTypedData` must
return an address whose lowercase form equals the lowercase `from`. -/
def sigCheckOk (env : RelayEnv) (r : RelayRequest) : Bool :=
  match env.verifyTypedData DOMAIN TYPES (typedMessageOf r) r.sigD with
  | .error _ => false
  | .ok recovered => toLowerCase recovered == toLowerCase r.fromD

/-- The relay's nonce check, lines 92-95: the contract's `nonces(from)`
read must succeed and equal the supplied nonce. -/
def nonceCheckOk (env : RelayEnv) (r : RelayRequest) : Bool :=
  match env.nonces r.fromD with
  | .error _ => false
  | .ok n => n == r.nonceD

/-- The cached `UserRole` record of the `useContract` hook. -/
structure UserRole where
  isManufacturer : Bool
  isAuditor : Bool
  isAdmin : Bool
deriving Repr, DecidableEq

/-- One manufacturer action record as stored by the hook. -/
structure EcoAction where
  description : String
  reductionAmount : Int
  ipfsHash : String
  verified : Bool
deriving Repr, DecidableEq

/-- Oracles for the reads the `useContract` hook performs against the
main contract: the three role-hash getters, `hasRole`, `balanceOf`,
the per-index `manufacturerActions` lookup, and the ethers.js
`formatEther` conversion. -/
structure ContractEnv where
  manufacturerRoleHash : Except Unit String
  auditorRoleHash : Except Unit String
  defaultAdminRoleHash : Except Unit String
  hasRole : String → String → Except Unit Bool
  balanceOf : String → Except Unit Int
  manufacturerActions : String → Nat → Except Unit EcoAction
  formatEther : Int → String

/-- The body of `checkUserRole`'s try block: the three role-hash reads
followed by the three `hasRole` queries, in source order; the first
failure aborts the whole chain. -/
def roleQueries (env : ContractEnv) (addr : String) : Except Unit UserRole :=
  match env.manufacturerRoleHash with
  | .error e => .error e
  | .ok manufacturerRole =>
    match env.auditorRoleHash with
    | .error e => .error e
    | .ok auditorRole =>
      match env.defaultAdminRoleHash with
      | .error e => .error e
      | .ok defaultAdminRole =>
        match env.hasRole manufacturerRole addr with
        | .error e => .error e
        | .ok isManufacturer =>
          match env.hasRole auditorRole addr with
          | .error e => .error e
          | .ok isAuditor =>
            match env.hasRole defaultAdminRole addr with
            | .error e => .error e
            | .ok isAdmin => .ok ⟨isManufacturer, isAuditor, isAdmin⟩

/-- `checkUserRole` from the `useContract` hook: guard on contract and
address, run the six queries, and replace the cached `UserRole` with a
single `setUserRole` call; on any query error the catch block only logs,
leaving the cache untouched. -/
def checkUserRole (env : ContractEnv) (hasContract : Bool) (address : Option String)
    (cached : UserRole) : UserRole :=
  match address with
  | none => cached
  | some addr =>
    if !hasContract then cached
    else
      match roleQueries env addr with
      | .ok r => r
      | .error _ => cached

/-- `getTokenBalance` from the `useContract` hook: returns the formatted
`balanceOf` result, and the string `"0"` both when the guard fails and
when the read throws. -/
def getTokenBalance (env : ContractEnv) (hasContract : Bool)
    (address : Option String) : String :=
  match address with
  | none => "0"
  | some addr =>
    if !hasContract then "0"
    else
      match env.balanceOf addr with
      | .ok balance => env.formatEther balance
      | .error _ => "0"

/-- The `fetchTokenBalance` effect in `App.tsx` (lines 55-67) combined
with `updateTokenBalance` from the `useWallet` hook: when connected
with an address, the cached wallet balance is overwritten by whatever
`getTokenBalance` returns; otherwise the cache is untouched. -/
def fetchTokenBalance (env : ContractEnv) (hasContract isConnected : Bool)
    (address : Option String) (cachedBalance : String) : String :=
  if isConnected && truthyStr address then getTokenBalance env hasContract address
  else cachedBalance

/-- The unbounded `while (true)` probe loop of `loadUserActions`,
modelled with explicit fuel: starting at index `i`, look records up one
index at a time, stopping at the first lookup error.  For any fuel large
enough to reach the first miss the result is independent of the fuel. -/
def probeActions (lookup : Nat → Except Unit EcoAction) : Nat → Nat → List EcoAction
  | 0, _ => []
  | fuel + 1, i =>
    match lookup i with
    | .error _ => []
    | .ok a => a :: probeActions lookup fuel (i + 1)

/-- `loadUserActions` from the `useContract` hook: guard on contract,
address and the cached manufacturer flag, then probe
`manufacturerActions(address, id)` from `id = 0` upward until the first
throw, accumulating records in index order; the resulting list is stored
with `setUserActions`.  `none` means the guard returned early and no
update happened. -/
def loadUserActions (env : ContractEnv) (hasContract : Bool) (address : Option String)
    (isManufacturer : Bool) (fuel : Nat) : Option (List EcoAction) :=
  match address with
  | none => none
  | some addr =>
    if !hasContract || !isManufacturer then none
    else some (probeActions (env.manufacturerActions addr) fuel 0)

/-- A role-change entry as stored in the hook's `roleEvents` state. -/
structure RoleChangeEvent where
  user : String
  role : String
  granted : Bool
  timestamp : Int
deriving Repr, DecidableEq

/-- The decoded `args` of a `RoleGranted`/`RoleRevoked` log entry. -/
structure RawEventArgs where
  account : String
  role : String
deriving Repr, DecidableEq

/-- A raw log entry from `queryFilter`: possibly-absent decoded args and
the block number. -/
structure RawEvent where
  args : Option RawEventArgs
  blockNumber : Int
deriving Repr, DecidableEq

/-- `getRoleName` from the `useContract` hook: the role-hash lookup
table with `"Unknown"` fallback. -/
def getRoleName (roleHash : String) : String :=
  if roleHash = "0x0000000000000000000000000000000000000000000000000000000000000000" then
    "Admin"
  else if roleHash = "0x9f2df0fed2c77648de5860a4cc508cd0818c85b8b8a1ab4ceeef8d981c8956a6" then
    "Manufacturer"
  else if roleHash = "0x1e4c11d3c2f3e3b3e3b3e3b3e3b3e3b3e3b3e3b3e3b3e3b3e3b3e3b3e3b3e3b3" then
    "Auditor"
  else "Unknown"

/-- Comparator used to model the JavaScript in-place sort
`(a, b) => b.timestamp - a.timestamp`: descending timestamp order. -/
def eventDescLe (a b : RoleChangeEvent) : Bool := decide (b.timestamp ≤ a.timestamp)

/-- `loadRoleEvents` from the `useContract` hook: fetch the
`RoleGranted` and `RoleRevoked` logs, map each entry with decoded args
to a `RoleChangeEvent` (granted entries first, then revoked, as pushed
in source order), sort by descending block number, and keep the first
20; a guard miss or a query error leaves the cached list untouched. -/
def loadRoleEvents (hasContract : Bool)
    (queryRes : Except Unit (List RawEvent × List RawEvent))
    (cached : List RoleChangeEvent) : List RoleChangeEvent :=
  if !hasContract then cached
  else
    match queryRes with
    | .error _ => cached
    | .ok (grantedEvents, revokedEvents) =>
      let events :=
        grantedEvents.filterMap (fun e => e.args.map fun a =>
          ({ user := a.account, role := getRoleName a.role, granted := true,
             timestamp := e.blockNumber } : RoleChangeEvent))
        ++ revokedEvents.filterMap (fun e => e.args.map fun a =>
          ({ user := a.account, role := getRoleName a.role, granted := false,
             timestamp := e.blockNumber } : RoleChangeEvent))
      (events.mergeSort eventDescLe).take 20

/-- Oracles for the client-side gasless-transfer flows: the meta-transfer
contract's `nonces` view, the clock, and `ethers.parseEther`. -/
structure ClientEnv where
  nonces : String → Except Unit Int
  now : Int
  parseEther : String → Int

/-- The TransferRequest record built by both client flows. -/
structure TransferRequest where
  fromAddr : String
  toAddr : String
  amount : String
  nonce : Int
  deadline : Int
deriving Repr, DecidableEq

namespace EcoGaslessTransfer

/-- `getNonce` in `EcoGaslessTransfer.tsx` (lines 88-103): guard on
provider and address, read `nonces(address)` from the contract, and fall
back to the current unix time only when that read throws. -/
def getNonce (env : ClientEnv) (hasProvider : Bool)
    (address : Option String) : Except String Int :=
  match address with
  | none => .error "Provider or address not available"
  | some addr =>
    if !hasProvider then .error "Provider or address not available"
    else
      match env.nonces addr with
      | .ok nonce => .ok nonce
      | .error _ => .ok env.now

/-- `createTransferRequest` in `EcoGaslessTransfer.tsx` (lines 105-118):
nonce from `getNonce`, deadline 15 minutes (900 seconds) from now. -/
def createTransferRequest (env : ClientEnv) (hasProvider : Bool)
    (address : Option String) (recipientAddress amount : String) :
    Except String TransferRequest :=
  match address with
  | none => .error "Address not available"
  | some addr =>
    match getNonce env hasProvider address with
    | .error e => .error e
    | .ok nonce =>
      .ok { fromAddr := addr, toAddr := recipientAddress,
            amount := toString (env.parseEther amount),
            nonce := nonce, deadline := env.now + 900 }

end EcoGaslessTransfer

namespace GaslessTransferForm

/-- `getNonce` in `GaslessTransferForm.tsx` (lines 85-96): guard on
provider and address, then return the current unix time unconditionally
— the try block constructs a contract object but never reads
`nonces(address)`, and the catch fallback is the same timestamp. -/
def getNonce (env : ClientEnv) (hasProvider : Bool)
    (address : Option String) : Except String Int :=
  match address with
  | none => .error "Provider or address not available"
  | some _ =>
    if !hasProvider then .error "Provider or address not available"
    else .ok env.now

/-- `createTransferRequest` in `GaslessTransferForm.tsx` (lines 98-111):
nonce from this file's `getNonce`, deadline 1 hour (3600 seconds) from
now. -/
def createTransferRequest (env : ClientEnv) (hasProvider : Bool)
    (address : Option String) (recipientAddress amount : String) :
    Except String TransferRequest :=
  match address with
  | none => .error "Address not available"
  | some addr =>
    match getNonce env hasProvider address with
    | .error e => .error e
    | .ok nonce =>
      .ok { fromAddr := addr, toAddr := recipientAddress,
            amount := toString (env.parseEther amount),
            nonce := nonce, deadline := env.now + 3600 }

end GaslessTransferForm

/-- Concrete relay environment used to instantiate theorems: recovery
returns the message's `from` field, the chain nonce is 5, and the
submission succeeds. -/
def testEnv : RelayEnv :=
  { currentTime := 1000,
    isAddress := fun s => s == "0xa" || s == "0xb",
    verifyTypedData := fun _ _ m _ => .ok m.fromAddr,
    nonces := fun _ => .ok 5,
    transferWithSig := fun _ _ => .ok ⟨"0xhash", 42⟩ }

/-- A well-formed relay request matching `testEnv`. -/
def goodReq : RelayRequest :=
  { fromAddr := some "0xa", toAddr := some "0xb",
    amount := some "1000000000000000000", nonce := some 5,
    deadline := some 2000, signature := some "0xsig" }

/-! Theorems -/

/-- C1: a relay request results in an on-chain `transferWithSig`
submission exactly when the request is a POST whose fields are present
and the address-format, deadline, signature-recovery, and nonce checks
all pass; a request failing any of these checks never reaches the
on-chain call. -/
theorem relay_checks_gate_submission (env : RelayEnv) (method : String)
    (req : RelayRequest) :
    (handler env method req).submitted = true ↔
      (method = "POST" ∧ missingFields req = false ∧ addrCheckOk env req = true ∧
        deadlineCheckOk env req = true ∧ sigCheckOk env req = true ∧
        nonceCheckOk env req = true) := by
  unfold handler addrCheckOk deadlineCheckOk sigCheckOk nonceCheckOk
  rcases hv : env.verifyTypedData DOMAIN TYPES (typedMessageOf req) req.sigD with e | r <;>
    rcases hn : env.nonces req.fromD with e2 | n <;>
      rcases hs : env.transferWithSig (typedMessageOf req) req.sigD with e3 | rc <;>
        split_ifs <;> simp_all <;>
          first
            | (split_ifs <;> simp_all)
            | (intros; simp_all)

/-- Helper: a passing address check makes the guard of line 63 false. -/
lemma addrCond_of_ok {env : RelayEnv} {req : RelayRequest}
    (haddr : addrCheckOk env req = true) :
    (!(env.isAddress req.fromD && env.isAddress req.toD)) = false := by
  unfold addrCheckOk at haddr
  simp_all

/-- Helper: a passing deadline check means the deadline has not passed. -/
lemma deadlineCond_of_ok {env : RelayEnv} {req : RelayRequest}
    (hdl : deadlineCheckOk env req = true) :
    ¬(req.deadlineD < env.currentTime) := by
  unfold deadlineCheckOk at hdl
  simp_all

/-- Helper: with all earlier checks passing and a successful recovery
matching `from` case-insensitively, a failed nonce-equality comparison
yields the Invalid nonce rejection without submission. -/
lemma handler_invalid_nonce {env : RelayEnv} {req : RelayRequest} {n : Int}
    (hmiss : missingFields req = false)
    (haddr : addrCheckOk env req = true)
    (hdl : deadlineCheckOk env req = true)
    (hsig : sigCheckOk env req = true)
    (hn : env.nonces req.fromD = .ok n)
    (hne : n ≠ req.nonceD) :
    handler env "POST" req = ⟨⟨400, .err "Invalid nonce"⟩, false⟩ := by
  unfold sigCheckOk at hsig
  rcases hv : env.verifyTypedData DOMAIN TYPES (typedMessageOf req) req.sigD with e | r
  · rw [hv] at hsig; simp at hsig
  · rw [hv] at hsig
    simp only [beq_iff_eq] at hsig
    simp [handler, hmiss, addrCond_of_ok haddr, deadlineCond_of_ok hdl, hv, hsig, hn, hne]

/-- C2: with fields present, addresses well-formed and the deadline in
the future, the relay recovers the signer via `verifyTypedData` over the
fixed `DOMAIN`, the `TYPES.Transfer` type and the supplied request
fields; a recovered address differing case-insensitively from `from`
yields the Invalid signature rejection without submission, while a
matching one never does. -/
theorem relay_sig_recovery_check (env : RelayEnv) (req : RelayRequest) (r : String)
    (hmiss : missingFields req = false)
    (haddr : addrCheckOk env req = true)
    (hdl : deadlineCheckOk env req = true)
    (hrec : env.verifyTypedData DOMAIN TYPES (typedMessageOf req) req.sigD = .ok r) :
    (toLowerCase r ≠ toLowerCase req.fromD →
      handler env "POST" req = ⟨⟨400, .err "Invalid signature"⟩, false⟩) ∧
    (toLowerCase r = toLowerCase req.fromD →
      (handler env "POST" req).resp ≠ ⟨400, .err "Invalid signature"⟩) := by
  constructor
  · intro hne
    simp [handler, hmiss, addrCond_of_ok haddr, deadlineCond_of_ok hdl, hrec, hne]
  · intro heq
    rcases hn : env.nonces req.fromD with e | n <;>
      rcases hs : env.transferWithSig (typedMessageOf req) req.sigD with e2 | rc <;>
        simp [handler, catchClause, hmiss, addrCond_of_ok haddr, deadlineCond_of_ok hdl,
          hrec, heq, hn, hs] <;>
          split_ifs <;> simp_all

/-- C2 witness. -/
theorem relay_sig_recovery_check_witness :
    let env : RelayEnv :=
      { testEnv with verifyTypedData := fun _ _ _ _ => .ok "0xb" }
    (toLowerCase "0xb" ≠ toLowerCase goodReq.fromD →
      handler env "POST" goodReq = ⟨⟨400, .err "Invalid signature"⟩, false⟩) ∧
    (toLowerCase "0xb" = toLowerCase goodReq.fromD →
      (handler env "POST" goodReq).resp ≠ ⟨400, .err "Invalid signature"⟩) :=
  relay_sig_recovery_check _ goodReq "0xb" (by decide) (by decide) (by decide) rfl

/-- C3: with fields present and addresses well-formed, the relay rejects
with the deadline-passed error exactly when `deadline < now`; in
particular `deadline = now - 1` is rejected without submission and
`deadline = now + 1` is never rejected for the deadline. -/
theorem relay_deadline_boundary (env : RelayEnv) (req : RelayRequest)
    (hmiss : missingFields req = false)
    (haddr : addrCheckOk env req = true) :
    ((handler env "POST" req).resp = ⟨400, .err "Transfer deadline has passed"⟩ ↔
      req.deadlineD < env.currentTime) ∧
    (req.deadlineD = env.currentTime - 1 →
      handler env "POST" req = ⟨⟨400, .err "Transfer deadline has passed"⟩, false⟩) ∧
    (req.deadlineD = env.currentTime + 1 →
      (handler env "POST" req).resp ≠ ⟨400, .err "Transfer deadline has passed"⟩) := by
  have hmain : (handler env "POST" req).resp =
      ⟨400, .err "Transfer deadline has passed"⟩ ↔ req.deadlineD < env.currentTime := by
    by_cases hdl : req.deadlineD < env.currentTime
    · simp [handler, hmiss, addrCond_of_ok haddr, hdl]
    · rcases hv : env.verifyTypedData DOMAIN TYPES (typedMessageOf req) req.sigD with e | r <;>
        rcases hn : env.nonces req.fromD with e2 | n <;>
          rcases hs : env.transferWithSig (typedMessageOf req) req.sigD with e3 | rc <;>
            simp [handler, catchClause, hmiss, addrCond_of_ok haddr, hdl, hv, hn, hs] <;>
              split_ifs <;> simp_all
  refine ⟨hmain, fun hlt => ?_, fun hgt => ?_⟩
  · have hdl : req.deadlineD < env.currentTime := by omega
    simp [handler, hmiss, addrCond_of_ok haddr, hdl]
  · have hdl : ¬(req.deadlineD < env.currentTime) := by omega
    intro h
    exact hdl (hmain.mp h)

/-- C3 witness. -/
theorem relay_deadline_boundary_witness :
    ((handler testEnv "POST" goodReq).resp =
        ⟨400, .err "Transfer deadline has passed"⟩ ↔
      goodReq.deadlineD < testEnv.currentTime) ∧
    (goodReq.deadlineD = testEnv.currentTime - 1 →
      handler testEnv "POST" goodReq = ⟨⟨400, .err "Transfer deadline has passed"⟩, false⟩) ∧
    (goodReq.deadlineD = testEnv.currentTime + 1 →
      (handler testEnv "POST" goodReq).resp ≠ ⟨400, .err "Transfer deadline has passed"⟩) :=
  relay_deadline_boundary testEnv goodReq (by decide) (by decide)

/-- C4: with the earlier checks passing, a supplied nonce different from
the current on-chain `nonces(from)` value is rejected with the Invalid
nonce error and no submission; in particular, for any later chain state
whose nonce for `from` has moved strictly past the supplied nonce — as
after an accepted transfer with that nonce — the same request is
rejected again. -/
theorem relay_nonce_mismatch_rejected (env : RelayEnv) (req : RelayRequest) (n : Int)
    (hmiss : missingFields req = false)
    (haddr : addrCheckOk env req = true)
    (hdl : deadlineCheckOk env req = true)
    (hsig : sigCheckOk env req = true)
    (hn : env.nonces req.fromD = .ok n)
    (hne : n ≠ req.nonceD) :
    handler env "POST" req = ⟨⟨400, .err "Invalid nonce"⟩, false⟩ ∧
    (∀ env2 : RelayEnv, ∀ n2 : Int, addrCheckOk env2 req = true →
      deadlineCheckOk env2 req = true → sigCheckOk env2 req = true →
      env2.nonces req.fromD = .ok n2 → req.nonceD < n2 →
      handler env2 "POST" req = ⟨⟨400, .err "Invalid nonce"⟩, false⟩) := by
  refine ⟨handler_invalid_nonce hmiss haddr hdl hsig hn hne, ?_⟩
  intro env2 n2 haddr2 hdl2 hsig2 hn2 hlt
  exact handler_invalid_nonce hmiss haddr2 hdl2 hsig2 hn2 (by omega)

/-- C4 witness. -/
theorem relay_nonce_mismatch_rejected_witness :
    let req : RelayRequest := { goodReq with nonce := some 4 }
    handler testEnv "POST" req = ⟨⟨400, .err "Invalid nonce"⟩, false⟩ ∧
    (∀ env2 : RelayEnv, ∀ n2 : Int, addrCheckOk env2 req = true →
      deadlineCheckOk env2 req = true → sigCheckOk env2 req = true →
      env2.nonces req.fromD = .ok n2 → req.nonceD < n2 →
      handler env2 "POST" req = ⟨⟨400, .err "Invalid nonce"⟩, false⟩) :=
  relay_nonce_mismatch_rejected testEnv _ 5 (by decide) (by decide) (by decide)
    (by decide) rfl (by decide)

/-- Helper: the probe loop collects exactly the records below the first
missing index, in index order, for any fuel large enough to reach it. -/
lemma probeActions_spec (lookup : Nat → Except Unit EcoAction) (f : Nat → EcoAction)
    (N : Nat) (hhit : ∀ i, i < N → lookup i = .ok (f i))
    (hmiss : lookup N = .error ()) :
    ∀ fuel i, i ≤ N → N - i < fuel →
      probeActions lookup fuel i = (List.range (N - i)).map (fun j => f (i + j)) := by
  intro fuel
  induction fuel with
  | zero => intro i hi hlt; omega
  | succ fuel ih =>
    intro i hi hlt
    rcases Nat.lt_or_eq_of_le hi with hlt2 | rfl
    · rw [show probeActions lookup (fuel + 1) i =
            (match lookup i with
             | .error _ => []
             | .ok a => a :: probeActions lookup fuel (i + 1)) from rfl,
          hhit i hlt2, ih (i + 1) (by omega) (by omega)]
      have hNi : N - i = (N - (i + 1)) + 1 := by omega
      rw [hNi, List.range_succ_eq_map, List.map_cons, List.map_map]
      refine congrArg₂ List.cons (by simp) ?_
      refine List.map_congr_left fun a _ => ?_
      simp only [Function.comp]
      congr 1
      omega
    · rw [show probeActions lookup (fuel + 1) i =
            (match lookup i with
             | .error _ => []
             | .ok a => a :: probeActions lookup fuel (i + 1)) from rfl,
          hmiss]
      simp

/-- C5: with records at indices `0..N-1` and a lookup miss at `N`, the
action loader probes sequentially from 0, accumulates records in index
order, returns exactly the `N` records, and treats the miss as the end
of the enumeration (the state update happens) rather than an error. -/
theorem loadActions_probe_until_miss (env : ContractEnv) (addr : String)
    (f : Nat → EcoAction) (N fuel : Nat)
    (hhit : ∀ i, i < N → env.manufacturerActions addr i = .ok (f i))
    (hmiss : env.manufacturerActions addr N = .error ())
    (hfuel : N < fuel) :
    loadUserActions env true (some addr) true fuel = some ((List.range N).map f) := by
  have h := probeActions_spec (env.manufacturerActions addr) f N hhit hmiss fuel 0
    (by omega) (by omega)
  simp only [loadUserActions, Bool.not_true, Bool.or_self, Bool.false_or, if_false,
    Bool.or_false]
  rw [h]
  simp

/-- A sample action record for concrete instances. -/
def act0 : EcoAction := ⟨"tree planting", 5, "Qm1", false⟩

/-- Concrete contract environment with two action records and succeeding
role and balance reads. -/
def probeEnv : ContractEnv :=
  { manufacturerRoleHash := .ok "0xm", auditorRoleHash := .ok "0xu",
    defaultAdminRoleHash := .ok "0xd",
    hasRole := fun _ _ => .ok true,
    balanceOf := fun _ => .ok 1,
    manufacturerActions := fun _ i => if i < 2 then .ok act0 else .error (),
    formatEther := fun _ => "1.0" }

/-- C5 witness. -/
theorem loadActions_probe_until_miss_witness :
    loadUserActions probeEnv true (some "0xa") true 3 =
      some ((List.range 2).map fun _ => act0) :=
  loadActions_probe_until_miss probeEnv "0xa" (fun _ => act0) 2 3
    (by decide) (by decide) (by decide)

/-- C6: a role refresh either completes all six chain queries of one
batch and replaces the cached RoleSet with the three flags of exactly
that batch in a single update, or leaves the cache entirely unchanged —
no partially-updated cache state exists. -/
theorem refreshRoles_atomic (env : ContractEnv) (addr : String) (cached : UserRole) :
    (∃ m u d im iu iad,
      env.manufacturerRoleHash = .ok m ∧ env.auditorRoleHash = .ok u ∧
      env.defaultAdminRoleHash = .ok d ∧
      env.hasRole m addr = .ok im ∧ env.hasRole u addr = .ok iu ∧
      env.hasRole d addr = .ok iad ∧
      checkUserRole env true (some addr) cached = ⟨im, iu, iad⟩) ∨
    checkUserRole env true (some addr) cached = cached := by
  unfold checkUserRole roleQueries
  rcases hm : env.manufacturerRoleHash with e | m
  · right; simp [hm]
  rcases hu : env.auditorRoleHash with e | u
  · right; simp [hm, hu]
  rcases hd : env.defaultAdminRoleHash with e | d
  · right; simp [hm, hu, hd]
  rcases him : env.hasRole m addr with e | im
  · right; simp [hm, hu, hd, him]
  rcases hiu : env.hasRole u addr with e | iu
  · right; simp [hm, hu, hd, him, hiu]
  rcases hiad : env.hasRole d addr with e | iad
  · right; simp [hm, hu, hd, him, hiu, hiad]
  left
  exact ⟨m, u, d, im, iu, iad, rfl, rfl, rfl, him, hiu, hiad,
    by simp [hm, hu, hd, him, hiu, hiad]⟩

/-- Contract environment in which every chain read fails. -/
def failEnv : ContractEnv :=
  { manufacturerRoleHash := .error (), auditorRoleHash := .error (),
    defaultAdminRoleHash := .error (), hasRole := fun _ _ => .error (),
    balanceOf := fun _ => .error (),
    manufacturerActions := fun _ _ => .error (),
    formatEther := fun _ => "" }

/-- C7 counterexample: with a cached balance of "5.0" and a failing
`balanceOf` read, the refresh effect stores "0" — the cached token
balance after the failed read does not equal its value before it. -/
theorem chainReadFailed_balance_counterexample :
    fetchTokenBalance failEnv true true (some "0xa") "5.0" = "0" ∧
    fetchTokenBalance failEnv true true (some "0xa") "5.0" ≠ "5.0" := by
  constructor <;> decide

/-- C7 amended: on a failed chain read the cached role flags are left
stale, but a failed balance read makes `getTokenBalance` return "0",
which the refresh effect then stores over the cached balance. -/
theorem chainReadFailed_stale_policy (env : ContractEnv) (addr : String)
    (cachedRole : UserRole) (cachedBal : String)
    (haddr : truthyStr (some addr) = true)
    (hroles : roleQueries env addr = .error ())
    (hbal : env.balanceOf addr = .error ()) :
    checkUserRole env true (some addr) cachedRole = cachedRole ∧
    getTokenBalance env true (some addr) = "0" ∧
    fetchTokenBalance env true true (some addr) cachedBal = "0" := by
  refine ⟨?_, ?_, ?_⟩
  · simp [checkUserRole, hroles]
  · simp [getTokenBalance, hbal]
  · simp [fetchTokenBalance, haddr, getTokenBalance, hbal]

/-- C7 amended witness. -/
theorem chainReadFailed_stale_policy_witness :
    checkUserRole failEnv true (some "0xa") ⟨true, false, true⟩ = ⟨true, false, true⟩ ∧
    getTokenBalance failEnv true (some "0xa") = "0" ∧
    fetchTokenBalance failEnv true true (some "0xa") "5.0" = "0" :=
  chainReadFailed_stale_policy failEnv "0xa" ⟨true, false, true⟩ "5.0"
    (by decide) (by decide) (by decide)

/-- Concrete client environment with a succeeding `nonces` read. -/
def clientEnvOk : ClientEnv :=
  { nonces := fun _ => .ok 7, now := 1000, parseEther := fun _ => 0 }

/-- C8 counterexample: in the secondary variant the chain nonce read
would succeed with 7, yet `getNonce` returns the current unix time 1000
— the nonce is not fetched from the contract with a failure-only
fallback. -/
theorem gasless_secondary_nonce_counterexample :
    clientEnvOk.nonces "0xa" = .ok 7 ∧
    GaslessTransferForm.getNonce clientEnvOk true (some "0xa") = .ok 1000 ∧
    GaslessTransferForm.getNonce clientEnvOk true (some "0xa") ≠ .ok 7 := by
  refine ⟨rfl, rfl, ?_⟩
  decide

/-- C8 amended: the primary flow fetches the nonce fresh from
`nonces(address)` and falls back to the current unix time only when the
read fails, with deadline now + 900 seconds; the secondary variant
always uses the current unix time as the nonce, with deadline
now + 3600 seconds. -/
theorem gasless_nonce_deadline_policy (env : ClientEnv)
    (addr recipient amount : String) (n : Int) :
    (env.nonces addr = .ok n →
      EcoGaslessTransfer.getNonce env true (some addr) = .ok n) ∧
    (env.nonces addr = .error () →
      EcoGaslessTransfer.getNonce env true (some addr) = .ok env.now) ∧
    GaslessTransferForm.getNonce env true (some addr) = .ok env.now ∧
    (∀ req, EcoGaslessTransfer.createTransferRequest env true (some addr)
        recipient amount = .ok req → req.deadline = env.now + 900) ∧
    (∀ req, GaslessTransferForm.createTransferRequest env true (some addr)
        recipient amount = .ok req → req.deadline = env.now + 3600) := by
  refine ⟨fun hn => ?_, fun he => ?_, ?_, fun req hreq => ?_, fun req hreq => ?_⟩
  · simp [EcoGaslessTransfer.getNonce, hn]
  · simp [EcoGaslessTransfer.getNonce, he]
  · simp [GaslessTransferForm.getNonce]
  · unfold EcoGaslessTransfer.createTransferRequest at hreq
    rcases hg : EcoGaslessTransfer.getNonce env true (some addr) with e | nonce <;>
      rw [hg] at hreq <;> simp_all
    subst hreq
    rfl
  · unfold GaslessTransferForm.createTransferRequest at hreq
    rcases hg : GaslessTransferForm.getNonce env true (some addr) with e | nonce <;>
      rw [hg] at hreq <;> simp_all
    subst hreq
    rfl

/-- C8 amended witness. -/
theorem gasless_nonce_deadline_policy_witness :
    (clientEnvOk.nonces "0xa" = .ok 7 →
      EcoGaslessTransfer.getNonce clientEnvOk true (some "0xa") = .ok 7) ∧
    (clientEnvOk.nonces "0xa" = .error () →
      EcoGaslessTransfer.getNonce clientEnvOk true (some "0xa") = .ok clientEnvOk.now) ∧
    GaslessTransferForm.getNonce clientEnvOk true (some "0xa") = .ok clientEnvOk.now ∧
    (∀ req, EcoGaslessTransfer.createTransferRequest clientEnvOk true (some "0xa")
        "0xb" "1" = .ok req → req.deadline = clientEnvOk.now + 900) ∧
    (∀ req, GaslessTransferForm.createTransferRequest clientEnvOk true (some "0xa")
        "0xb" "1" = .ok req → req.deadline = clientEnvOk.now + 3600) :=
  gasless_nonce_deadline_policy clientEnvOk "0xa" "0xb" "1" 7

/-- Helper: the descending-timestamp comparator is transitive. -/
lemma eventDescLe_trans (a b c : RoleChangeEvent) :
    eventDescLe a b = true → eventDescLe b c = true → eventDescLe a c = true := by
  unfold eventDescLe
  intro h1 h2
  simp only [decide_eq_true_eq] at h1 h2 ⊢
  omega

/-- Helper: the descending-timestamp comparator is total. -/
lemma eventDescLe_total (a b : RoleChangeEvent) :
    (eventDescLe a b || eventDescLe b a) = true := by
  unfold eventDescLe
  rcases le_total b.timestamp a.timestamp with h | h <;> simp [h]

/-- C9: the role-event list maintained by `loadRoleEvents` is always
sorted by non-increasing block height and never longer than 20 entries:
the property is preserved by every refresh, including the guard-miss and
query-failure paths that keep the cached list. -/
theorem roleEvents_sorted_truncated (hasContract : Bool)
    (queryRes : Except Unit (List RawEvent × List RawEvent))
    (cached : List RoleChangeEvent)
    (hc : List.Pairwise (fun a b => b.timestamp ≤ a.timestamp) cached ∧
      cached.length ≤ 20) :
    List.Pairwise (fun a b => b.timestamp ≤ a.timestamp)
        (loadRoleEvents hasContract queryRes cached) ∧
      (loadRoleEvents hasContract queryRes cached).length ≤ 20 := by
  rcases queryRes with e | ⟨grantedEvents, revokedEvents⟩ <;>
    unfold loadRoleEvents <;> split_ifs <;> try exact hc
  constructor
  · refine List.Pairwise.sublist (List.take_sublist _ _) ?_
    have hs := List.sorted_mergeSort
      eventDescLe_trans eventDescLe_total
      (grantedEvents.filterMap (fun e => e.args.map fun a =>
        ({ user := a.account, role := getRoleName a.role, granted := true,
           timestamp := e.blockNumber } : RoleChangeEvent))
        ++ revokedEvents.filterMap (fun e => e.args.map fun a =>
          ({ user := a.account, role := getRoleName a.role, granted := false,
             timestamp := e.blockNumber } : RoleChangeEvent)))
    refine hs.imp ?_
    intro a b h
    simpa [eventDescLe] using h
  · exact List.length_take_le 20 _

/-- C9 witness. -/
theorem roleEvents_sorted_truncated_witness :
    List.Pairwise (fun a b => b.timestamp ≤ a.timestamp)
        (loadRoleEvents true
          (.ok ([⟨some ⟨"0xu", "0xr"⟩, 3⟩], [⟨some ⟨"0xv", "0xr"⟩, 9⟩])) []) ∧
      (loadRoleEvents true
        (.ok ([⟨some ⟨"0xu", "0xr"⟩, 3⟩], [⟨some ⟨"0xv", "0xr"⟩, 9⟩])) []).length ≤ 20 :=
  roleEvents_sorted_truncated true
    (.ok ([⟨some ⟨"0xu", "0xr"⟩, 3⟩], [⟨some ⟨"0xv", "0xr"⟩, 9⟩])) []
    ⟨List.Pairwise.nil, by decide⟩

/-- C10 counterexample: a request whose amount is the string "0" is a
nonempty — hence truthy — string, so it passes the presence check and is
not rejected as Missing required fields, contrary to the claim. -/
theorem missing_fields_amount_zero_counterexample :
    missingFields { goodReq with amount := some "0" } = false ∧
    (handler testEnv "POST" { goodReq with amount := some "0" }).resp ≠
      ⟨400, .err "Missing required fields"⟩ := by
  constructor <;> decide

/-- C10 amended: the presence check is asymmetric: a nonce equal to 0
passes (compared only against `undefined`), and the nonempty amount
string "0" also passes, while a deadline of 0 and empty `from`, `to` or
`signature` strings are rejected as Missing required fields by
truthiness. -/
theorem missing_fields_truthiness :
    missingFields { goodReq with nonce := some 0 } = false ∧
    missingFields { goodReq with amount := some "0" } = false ∧
    handler testEnv "POST" { goodReq with deadline := some 0 } =
      ⟨⟨400, .err "Missing required fields"⟩, false⟩ ∧
    handler testEnv "POST" { goodReq with fromAddr := some "" } =
      ⟨⟨400, .err "Missing required fields"⟩, false⟩ ∧
    handler testEnv "POST" { goodReq with toAddr := some "" } =
      ⟨⟨400, .err "Missing required fields"⟩, false⟩ ∧
    handler testEnv "POST" { goodReq with signature := some "" } =
      ⟨⟨400, .err "Missing required fields"⟩, false⟩ ∧
    (handler testEnv "POST" { goodReq with nonce := some 0 }).resp ≠
      ⟨400, .err "Missing required fields"⟩ := by
  refine ⟨?_, ?_, ?_, ?_, ?_, ?_, ?_⟩ <;> decide

end CarbonToken
